import Mathlib

/-!
Shallow embedding of `malatang_processor.py` (meituantupianxiazaixiufu).

The embedding follows the source classes:
* `DataExtractor._clean_filename`  → `clean_filename`
* `ExcelManager.save_products_to_excel` → `save_products_to_excel`
* `ImageDownloader.download_images` → `download_images`
* `ImageDownloader._download_single_image` → `download_single_image`
* `ImageDownloader._download_and_convert_to_jpg` → `download_and_convert_to_jpg`
* `DataExtractor.parse_json_file` / `MalatangProcessor.process_file` → `parse_json_file` / `process_file`
* `FileMonitorHandler.on_modified` → `on_modified`

Strings manipulated character-by-character are modelled as `List Char`;
machine-level effects (HTTP, filesystem) are modelled by explicit oracles
and explicit state values.
-/

/-- `Config.MAX_RETRIES` in the source. -/
def MAX_RETRIES : Nat := 3

/-- `Config.CONVERT_TO_JPG` in the source (default configuration). -/
def CONVERT_TO_JPG : Bool := true

/-- `Config.INPUT_FILE` in the source. -/
def INPUT_FILE : String := "D:/ailun/liansuoshuju.txt"

/-!  ## `DataExtractor._clean_filename`  (source lines 150-182)

The Python code runs `clean_name.replace(old, new)` for each pair of the
`replacements` dict, in insertion order, then appends the extension
(`.jpg` whenever `Config.CONVERT_TO_JPG` is set, which is the default).
Each `old` key is a single character, so `str.replace` is a pointwise map. -/

/-- Python `s.replace(old, new)` for a single-character pattern. -/
def pyReplace (old new : Char) (s : List Char) : List Char :=
  s.map fun c => if c = old then new else c

/-- The `replacements` dict of `_clean_filename`, in source (insertion) order. -/
def replacements : List (Char × Char) :=
  [('<', '＜'), ('>', '＞'), (':', '：'), ('"', '"'), ('/', '／'),
   ('\\', '＼'), ('|', '｜'), ('?', '？'), ('*', '＊')]

/-- `DataExtractor._clean_filename` with `Config.CONVERT_TO_JPG = True`
(the shipped configuration): substitute the reserved characters, then
append `.jpg`. -/
def clean_filename (product_name : List Char) : List Char :=
  (replacements.foldl (fun s p => pyReplace p.1 p.2 s) product_name) ++ ".jpg".toList

/-- The per-character substitution described by the spec's table
(§4.2): each of the nine reserved ASCII characters is replaced per the
table (a full-width counterpart, except `"` whose table entry maps it to
itself, ASCII on both sides, exactly as the source dict does); every
other character passes through unchanged. -/
def substChar (c : Char) : Char :=
  if c = '<' then '＜'
  else if c = '>' then '＞'
  else if c = ':' then '：'
  else if c = '"' then '"'
  else if c = '/' then '／'
  else if c = '\\' then '＼'
  else if c = '|' then '｜'
  else if c = '?' then '？'
  else if c = '*' then '＊'
  else c

/-- The nine reserved ASCII characters of the substitution table. -/
def reservedChars : List Char := ['<', '>', ':', '"', '/', '\\', '|', '?', '*']

lemma clean_filename_eq_map (name : List Char) :
    clean_filename name = name.map substChar ++ ".jpg".toList := by
  unfold clean_filename replacements
  simp only [List.foldl_cons, List.foldl_nil, pyReplace, List.map_map]
  refine congrArg (fun l => l ++ ".jpg".toList) ?_
  refine List.map_congr_left fun c _ => ?_
  by_cases h1 : c = '<'
  · subst h1; rfl
  by_cases h2 : c = '>'
  · subst h2; rfl
  by_cases h3 : c = ':'
  · subst h3; rfl
  by_cases h4 : c = '"'
  · subst h4; rfl
  by_cases h5 : c = '/'
  · subst h5; rfl
  by_cases h6 : c = '\\'
  · subst h6; rfl
  by_cases h7 : c = '|'
  · subst h7; rfl
  by_cases h8 : c = '?'
  · subst h8; rfl
  by_cases h9 : c = '*'
  · subst h9; rfl
  simp [Function.comp, substChar, h1, h2, h3, h4, h5, h6, h7, h8, h9]

lemma substChar_of_not_reserved {c : Char} (h : c ∉ reservedChars) :
    substChar c = c := by
  unfold reservedChars at h
  simp only [List.mem_cons, List.mem_singleton, not_or] at h
  obtain ⟨h1, h2, h3, h4, h5, h6, h7, h8, h9⟩ := h
  simp [substChar, h1, h2, h3, h4, h5, h6, h7, h8, h9]

lemma clean_filename_length (name : List Char) :
    (clean_filename name).length = name.length + 4 := by
  simp [clean_filename_eq_map]

/-- C3: `clean_filename` equals the pointwise substitution of the nine
reserved characters followed by the `.jpg` extension. -/
theorem clean_filename_is_pointwise_subst (name : List Char) :
    clean_filename name = name.map substChar ++ ".jpg".toList :=
  clean_filename_eq_map name

/-- C4: filename derivation changes only occurrences of the nine reserved
characters; it is injective on names that differ at some position where
neither character is reserved (or that differ in length); and the result
always carries the `.jpg` extension. -/
theorem clean_filename_reserved_only_and_injective :
    (∀ (name : List Char) (i : Nat) (c : Char), name[i]? = some c → c ∉ reservedChars →
      (clean_filename name)[i]? = some c) ∧
    (∀ n1 n2 : List Char,
      (n1.length ≠ n2.length ∨
        ∃ i, ∃ (h1 : i < n1.length) (h2 : i < n2.length),
          n1.get ⟨i, h1⟩ ≠ n2.get ⟨i, h2⟩ ∧
          n1.get ⟨i, h1⟩ ∉ reservedChars ∧ n2.get ⟨i, h2⟩ ∉ reservedChars) →
      clean_filename n1 ≠ clean_filename n2) ∧
    (∀ name : List Char, List.IsSuffix ".jpg".toList (clean_filename name)) := by
  refine ⟨?_, ?_, ?_⟩
  · intro name i c hget hres
    have hi : i < name.length := (List.getElem?_eq_some.mp hget).1
    rw [clean_filename_eq_map, List.getElem?_append, List.length_map, if_pos hi,
      List.getElem?_map, hget]
    simp [substChar_of_not_reserved hres]
  · intro n1 n2 hdiff heq
    have hlen : n1.length = n2.length := by
      have := congrArg List.length heq
      rw [clean_filename_length, clean_filename_length] at this
      omega
    rcases hdiff with hne | ⟨i, h1, h2, hne, hr1, hr2⟩
    · exact hne hlen
    · rw [clean_filename_eq_map, clean_filename_eq_map] at heq
      have hmap : n1.map substChar = n2.map substChar :=
        (List.append_inj heq (by simp [hlen])).1
      have hq := congrArg (fun l => l[i]?) hmap
      simp only [List.getElem?_map] at hq
      rw [List.getElem?_eq_getElem h1, List.getElem?_eq_getElem h2] at hq
      simp only [Option.map_some', Option.some.injEq] at hq
      simp only [List.get_eq_getElem, Fin.getElem_fin] at hne hr1 hr2
      rw [substChar_of_not_reserved hr1, substChar_of_not_reserved hr2] at hq
      exact hne hq
  · intro name
    exact ⟨name.map substChar, (clean_filename_eq_map name).symm⟩

/-- Witness for `clean_filename_reserved_only_and_injective` at concrete names. -/
theorem clean_filename_reserved_only_witness :
    (clean_filename ['a', '<'])[0]? = some 'a' ∧
    clean_filename ['a'] ≠ clean_filename ['b'] := by
  have h := clean_filename_reserved_only_and_injective
  refine ⟨h.1 ['a', '<'] 0 'a' rfl (by decide), ?_⟩
  exact h.2.1 ['a'] ['b']
    (Or.inr ⟨0, by decide, by decide, by decide, by decide, by decide⟩)

/-!  ## Catalog data model and `ExcelManager.save_products_to_excel`
(source lines 185-238)

A `Product` is the dict built by `DataExtractor._extract_single_product`;
a `Row` is one Excel row with the fixed column set
商品名称/原价/折扣价/月售数量/图片链接/图片文件名/更新时间, rendered here with
English field names in the same order. -/

structure Product where
  name : String
  price : ℚ
  discount_price : ℚ
  month_sale : ℤ
  image_url : String
  image_filename : String
deriving DecidableEq

structure Row where
  name : String             -- 商品名称
  price : ℚ                 -- 原价
  discount_price : ℚ        -- 折扣价
  month_sale : ℤ            -- 月售数量
  image_url : String        -- 图片链接
  image_filename : String   -- 图片文件名
  last_updated : String     -- 更新时间
deriving DecidableEq

/-- The row appended for one new product (`new_data.append({...})` in the
source), with `更新时间` set to `current_time`. -/
def productToRow (p : Product) (current_time : String) : Row :=
  { name := p.name, price := p.price, discount_price := p.discount_price,
    month_sale := p.month_sale, image_url := p.image_url,
    image_filename := p.image_filename, last_updated := current_time }

/-- `existing_names = set(existing_df['商品名称'].tolist())` (membership view). -/
def rowNames (rows : List Row) : List String := rows.map (fun r => r.name)

/-- The `new_data` list built by the loop in `save_products_to_excel`:
products whose name is not among the existing names, in product order. -/
def newData (existing : List Row) (products : List Product)
    (current_time : String) : List Row :=
  (products.filter fun p => decide (p.name ∉ rowNames existing)).map
    (fun p => productToRow p current_time)

/-- `ExcelManager.save_products_to_excel`: the resulting file contents.
When `new_data` is empty the file is not rewritten (contents stay
`existing`); otherwise `pd.concat([existing_df, new_df])` is written. -/
def save_products_to_excel (existing : List Row) (products : List Product)
    (current_time : String) : List Row :=
  if (newData existing products current_time).isEmpty then existing
  else existing ++ newData existing products current_time

lemma save_products_eq (existing : List Row) (products : List Product)
    (current_time : String) :
    save_products_to_excel existing products current_time =
      existing ++ newData existing products current_time := by
  unfold save_products_to_excel
  split
  · next h => rw [List.isEmpty_iff.mp h, List.append_nil]
  · rfl

/-- C1: `save_products_to_excel` appends exactly the products whose name is
not already among the persisted names, in extraction order; every appended
row carries the persistence-time timestamp; previously persisted rows are
unchanged in content and position. -/
theorem save_products_merge_spec (existing : List Row) (products : List Product)
    (current_time : String) :
    save_products_to_excel existing products current_time =
      existing ++ newData existing products current_time ∧
    newData existing products current_time =
      (products.filter fun p => decide (p.name ∉ rowNames existing)).map
        (fun p => productToRow p current_time) ∧
    (∀ r ∈ newData existing products current_time, r.last_updated = current_time) ∧
    (save_products_to_excel existing products current_time).take existing.length =
      existing := by
  refine ⟨save_products_eq existing products current_time, rfl, ?_, ?_⟩
  · intro r hr
    unfold newData at hr
    obtain ⟨p, _, hp⟩ := List.mem_map.mp hr
    rw [← hp]
    rfl
  · rw [save_products_eq, List.take_left]

/-- Witness for `save_products_merge_spec` at a concrete catalog and feed. -/
theorem save_products_merge_witness :
    save_products_to_excel [productToRow ⟨"a", 1, 1, 0, "", ""⟩ "t0"]
        [⟨"a", 2, 2, 0, "", ""⟩, ⟨"b", 3, 3, 0, "", ""⟩] "t1" =
      [productToRow ⟨"a", 1, 1, 0, "", ""⟩ "t0", productToRow ⟨"b", 3, 3, 0, "", ""⟩ "t1"] ∧
    (productToRow ⟨"b", 3, 3, 0, "", ""⟩ "t1").last_updated = "t1" := by
  have h := save_products_merge_spec [productToRow ⟨"a", 1, 1, 0, "", ""⟩ "t0"]
    [⟨"a", 2, 2, 0, "", ""⟩, ⟨"b", 3, 3, 0, "", ""⟩] "t1"
  refine ⟨?_, h.2.2.1 (productToRow ⟨"b", 3, 3, 0, "", ""⟩ "t1") (by decide)⟩
  rw [h.1]
  decide

/-- C10: deduplication is computed only against the already-persisted names;
duplicate names inside one product list are each appended, so one run can
produce duplicate catalog rows. -/
theorem dedup_only_against_existing_catalog (existing : List Row)
    (current_time : String) :
    (∀ p1 p2 : Product, p1.name = p2.name → p1.name ∉ rowNames existing →
      save_products_to_excel existing [p1, p2] current_time =
        existing ++ [productToRow p1 current_time, productToRow p2 current_time]) ∧
    (∀ (products : List Product) (n : String), n ∉ rowNames existing →
      ((save_products_to_excel existing products current_time).countP
          fun r => decide (r.name = n)) =
        products.countP fun p => decide (p.name = n)) := by
  constructor
  · intro p1 p2 hname habs
    have habs2 : p2.name ∉ rowNames existing := hname ▸ habs
    rw [save_products_eq]
    unfold newData
    rw [List.filter_cons_of_pos (by simpa using habs),
      List.filter_cons_of_pos (by simpa using habs2)]
    rfl
  · intro products n hn
    rw [save_products_eq, List.countP_append]
    have h0 : (existing.countP fun r => decide (r.name = n)) = 0 := by
      rw [List.countP_eq_zero]
      intro r hr hcontra
      exact hn (List.mem_map.mpr ⟨r, hr, (of_decide_eq_true hcontra).symm ▸ rfl⟩)
    rw [h0, Nat.zero_add]
    induction products with
    | nil => rfl
    | cons p ps ih =>
      by_cases hpn : p.name = n
      · have hnot : p.name ∉ rowNames existing := hpn ▸ hn
        unfold newData
        rw [List.filter_cons_of_pos (by simpa using hnot)]
        rw [List.map_cons, List.countP_cons_of_pos _ _ (by simp [productToRow, hpn]),
          List.countP_cons_of_pos _ _ (by simpa using hpn)]
        unfold newData at ih
        rw [ih]
      · by_cases hmem : p.name ∈ rowNames existing
        · unfold newData
          rw [List.filter_cons_of_neg (by simpa using hmem)]
          rw [List.countP_cons_of_neg _ _ (by simpa using hpn)]
          unfold newData at ih
          rw [ih]
        · unfold newData
          rw [List.filter_cons_of_pos (by simpa using hmem)]
          rw [List.map_cons, List.countP_cons_of_neg _ _ (by simp [productToRow, hpn]),
            List.countP_cons_of_neg _ _ (by simpa using hpn)]
          unfold newData at ih
          rw [ih]

/-- Witness for `dedup_only_against_existing_catalog`: a feed with the same
new name twice yields two appended rows. -/
theorem dedup_only_witness :
    save_products_to_excel [] [⟨"a", 1, 1, 0, "", ""⟩, ⟨"a", 2, 2, 0, "", ""⟩] "t" =
      [productToRow ⟨"a", 1, 1, 0, "", ""⟩ "t", productToRow ⟨"a", 2, 2, 0, "", ""⟩ "t"] ∧
    (save_products_to_excel [] [⟨"a", 1, 1, 0, "", ""⟩, ⟨"a", 2, 2, 0, "", ""⟩] "t").countP
        (fun r => decide (r.name = "a")) = 2 := by
  have h := dedup_only_against_existing_catalog [] "t"
  refine ⟨h.1 ⟨"a", 1, 1, 0, "", ""⟩ ⟨"a", 2, 2, 0, "", ""⟩ rfl (by decide), ?_⟩
  rw [h.2 [⟨"a", 1, 1, 0, "", ""⟩, ⟨"a", 2, 2, 0, "", ""⟩] "a" (by decide)]
  decide

/-!  ## `ImageDownloader.download_images`  (source lines 277-303)

The download loop threads the set of files present in the image
directory (modelled as a list of filenames) and the three counters.
`_download_single_image(url, path)` is a network effect; its success is
abstracted by the oracle `singleOk` (a successful call leaves the file at
`path`, a failed one leaves nothing — see `download_single_image` below
for the retry structure of one call). -/

structure DownloadCounts where
  downloaded : Nat
  skipped : Nat
  failed : Nat
deriving DecidableEq

def bumpDownloaded : DownloadCounts × List String → DownloadCounts × List String
  | (c, d) => ({ c with downloaded := c.downloaded + 1 }, d)

def bumpSkipped : DownloadCounts × List String → DownloadCounts × List String
  | (c, d) => ({ c with skipped := c.skipped + 1 }, d)

def bumpFailed : DownloadCounts × List String → DownloadCounts × List String
  | (c, d) => ({ c with failed := c.failed + 1 }, d)

/-- The `for product in products` loop of `download_images`. -/
def download_images_loop (singleOk : String → Bool) :
    List Product → List String → DownloadCounts × List String
  | [], disk => (⟨0, 0, 0⟩, disk)
  | p :: ps, disk =>
    if p.image_url = "" ∨ p.image_filename = "" then
      download_images_loop singleOk ps disk
    else if p.image_filename ∈ disk then
      bumpSkipped (download_images_loop singleOk ps disk)
    else if singleOk p.image_url = true then
      bumpDownloaded (download_images_loop singleOk ps (p.image_filename :: disk))
    else
      bumpFailed (download_images_loop singleOk ps disk)

/-- `ImageDownloader.download_images` (the directory itself is created with
`exist_ok=True` before the loop; the state here is the file set). -/
def download_images (singleOk : String → Bool) (products : List Product)
    (disk : List String) : DownloadCounts × List String :=
  download_images_loop singleOk products disk

@[simp] lemma bumpDownloaded_snd (r : DownloadCounts × List String) :
    (bumpDownloaded r).2 = r.2 := by obtain ⟨c, d⟩ := r; rfl

@[simp] lemma bumpSkipped_snd (r : DownloadCounts × List String) :
    (bumpSkipped r).2 = r.2 := by obtain ⟨c, d⟩ := r; rfl

@[simp] lemma bumpFailed_snd (r : DownloadCounts × List String) :
    (bumpFailed r).2 = r.2 := by obtain ⟨c, d⟩ := r; rfl

lemma download_disk_mono (singleOk : String → Bool) (products : List Product)
    (disk : List String) (f : String) (hf : f ∈ disk) :
    f ∈ (download_images_loop singleOk products disk).2 := by
  induction products generalizing disk with
  | nil => simpa [download_images_loop]
  | cons p ps ih =>
    unfold download_images_loop
    split
    · exact ih disk hf
    · split
      · rw [bumpSkipped_snd]
        exact ih disk hf
      · split
        · rw [bumpDownloaded_snd]
          exact ih (p.image_filename :: disk) (List.mem_cons_of_mem _ hf)
        · rw [bumpFailed_snd]
          exact ih disk hf

lemma download_puts_files_on_disk (singleOk : String → Bool)
    (products : List Product) (disk : List String)
    (hok : ∀ p ∈ products, p.image_url ≠ "" → singleOk p.image_url = true) :
    ∀ p ∈ products, p.image_url ≠ "" → p.image_filename ≠ "" →
      p.image_filename ∈ (download_images_loop singleOk products disk).2 := by
  induction products generalizing disk with
  | nil => intro p hp; cases hp
  | cons q ps ih =>
    intro p hp hu hf
    have hok' : ∀ r ∈ ps, r.image_url ≠ "" → singleOk r.image_url = true :=
      fun r hr => hok r (List.mem_cons_of_mem _ hr)
    unfold download_images_loop
    by_cases hq : q.image_url = "" ∨ q.image_filename = ""
    · rw [if_pos hq]
      rcases List.mem_cons.mp hp with rfl | hp'
      · rcases hq with hq | hq
        · exact absurd hq hu
        · exact absurd hq hf
      · exact ih disk hok' p hp' hu hf
    · rw [if_neg hq]
      push_neg at hq
      by_cases hdisk : q.image_filename ∈ disk
      · rw [if_pos hdisk, bumpSkipped_snd]
        rcases List.mem_cons.mp hp with rfl | hp'
        · exact download_disk_mono singleOk ps disk _ hdisk
        · exact ih disk hok' p hp' hu hf
      · rw [if_neg hdisk, if_pos (hok q (List.mem_cons_self q ps) hq.1),
          bumpDownloaded_snd]
        rcases List.mem_cons.mp hp with rfl | hp'
        · exact download_disk_mono singleOk ps _ _ (List.mem_cons_self _ _)
        · exact ih (q.image_filename :: disk) hok' p hp' hu hf

lemma download_all_on_disk (singleOk : String → Bool) (products : List Product)
    (disk : List String)
    (h : ∀ p ∈ products, p.image_url ≠ "" →
      p.image_filename ≠ "" ∧ p.image_filename ∈ disk) :
    download_images_loop singleOk products disk =
      (⟨0, (products.filter fun p => decide (p.image_url ≠ "")).length, 0⟩, disk) := by
  induction products with
  | nil => rfl
  | cons p ps ih =>
    have h' : ∀ q ∈ ps, q.image_url ≠ "" →
        q.image_filename ≠ "" ∧ q.image_filename ∈ disk :=
      fun q hq => h q (List.mem_cons_of_mem _ hq)
    unfold download_images_loop
    by_cases hu : p.image_url = ""
    · rw [if_pos (Or.inl hu), List.filter_cons_of_neg (by simp [hu])]
      exact ih h'
    · obtain ⟨hf, hd⟩ := h p (List.mem_cons_self p ps) hu
      rw [if_neg (by simp [hu, hf]), if_pos hd, ih h',
        List.filter_cons_of_pos (by simpa using hu)]
      rfl

lemma name_mem_save (existing : List Row) (products : List Product)
    (current_time : String) :
    ∀ p ∈ products, p.name ∈ rowNames (save_products_to_excel existing products current_time) := by
  intro p hp
  rw [save_products_eq]
  unfold rowNames
  rw [List.map_append]
  by_cases h : p.name ∈ rowNames existing
  · unfold rowNames at h
    exact List.mem_append_left _ h
  · refine List.mem_append_right _ ?_
    unfold newData
    rw [List.map_map]
    exact List.mem_map.mpr ⟨p, List.mem_filter.mpr ⟨hp, by simpa using h⟩, rfl⟩

lemma newData_nil_of_all_names (existing : List Row) (products : List Product)
    (current_time : String)
    (h : ∀ p ∈ products, p.name ∈ rowNames existing) :
    newData existing products current_time = [] := by
  unfold newData
  have : products.filter (fun p => decide (p.name ∉ rowNames existing)) = [] := by
    rw [List.filter_eq_nil_iff]
    intro p hp
    simpa using h p hp
  rw [this]
  rfl

/-!  ## One orchestrated run (`MalatangProcessor.process_file`, success path:
save to Excel, then download images — source lines 463-467). -/

structure RunResult where
  catalog : List Row
  disk : List String
  newCount : Nat
  counts : DownloadCounts
deriving DecidableEq

/-- The catalog-persist plus image-download stages of one pipeline run over
the products extracted from the feed. -/
def runPipeline (singleOk : String → Bool) (products : List Product)
    (catalog : List Row) (disk : List String) (current_time : String) : RunResult :=
  let catalog2 := save_products_to_excel catalog products current_time
  let r := download_images singleOk products disk
  { catalog := catalog2, disk := r.2,
    newCount := (newData catalog products current_time).length, counts := r.1 }

/-- C2: a second run on an unchanged feed, against the catalog and image
directory produced by a first run whose fetches all succeeded, adds zero
catalog rows, downloads zero images, fails zero images, and counts every
product with a non-empty image URL as skipped; disk is unchanged. -/
theorem pipeline_second_run_idempotent (singleOk : String → Bool)
    (products : List Product) (catalog0 : List Row) (disk0 : List String)
    (t1 t2 : String)
    (hfile : ∀ p ∈ products, p.image_url ≠ "" → p.image_filename ≠ "")
    (hok : ∀ p ∈ products, p.image_url ≠ "" → singleOk p.image_url = true) :
    (runPipeline singleOk products
        (runPipeline singleOk products catalog0 disk0 t1).catalog
        (runPipeline singleOk products catalog0 disk0 t1).disk t2).newCount = 0 ∧
    (runPipeline singleOk products
        (runPipeline singleOk products catalog0 disk0 t1).catalog
        (runPipeline singleOk products catalog0 disk0 t1).disk t2).catalog =
      (runPipeline singleOk products catalog0 disk0 t1).catalog ∧
    (runPipeline singleOk products
        (runPipeline singleOk products catalog0 disk0 t1).catalog
        (runPipeline singleOk products catalog0 disk0 t1).disk t2).counts =
      ⟨0, (products.filter fun p => decide (p.image_url ≠ "")).length, 0⟩ ∧
    (runPipeline singleOk products
        (runPipeline singleOk products catalog0 disk0 t1).catalog
        (runPipeline singleOk products catalog0 disk0 t1).disk t2).disk =
      (runPipeline singleOk products catalog0 disk0 t1).disk := by
  have hnames : ∀ p ∈ products,
      p.name ∈ rowNames (runPipeline singleOk products catalog0 disk0 t1).catalog :=
    fun p hp => name_mem_save catalog0 products t1 p hp
  have hdisk : ∀ p ∈ products, p.image_url ≠ "" →
      p.image_filename ≠ "" ∧
      p.image_filename ∈ (runPipeline singleOk products catalog0 disk0 t1).disk := by
    intro p hp hu
    exact ⟨hfile p hp hu,
      download_puts_files_on_disk singleOk products disk0 hok p hp hu (hfile p hp hu)⟩
  have hnil := newData_nil_of_all_names
    (runPipeline singleOk products catalog0 disk0 t1).catalog products t2 hnames
  have hdl := download_all_on_disk singleOk products
    (runPipeline singleOk products catalog0 disk0 t1).disk hdisk
  refine ⟨?_, ?_, ?_, ?_⟩
  · show (newData _ products t2).length = 0
    rw [hnil]
    rfl
  · show save_products_to_excel _ products t2 = _
    rw [save_products_eq, hnil, List.append_nil]
  · show (download_images singleOk products _).1 = _
    unfold download_images
    rw [hdl]
  · show (download_images singleOk products _).2 = _
    unfold download_images
    rw [hdl]

/-- Witness for `pipeline_second_run_idempotent` at a concrete feed. -/
theorem pipeline_second_run_witness :
    (runPipeline (fun _ => true) [⟨"a", 1, 1, 0, "u", "a.jpg"⟩]
        (runPipeline (fun _ => true) [⟨"a", 1, 1, 0, "u", "a.jpg"⟩] [] [] "t1").catalog
        (runPipeline (fun _ => true) [⟨"a", 1, 1, 0, "u", "a.jpg"⟩] [] [] "t1").disk
        "t2").newCount = 0 ∧
    (runPipeline (fun _ => true) [⟨"a", 1, 1, 0, "u", "a.jpg"⟩]
        (runPipeline (fun _ => true) [⟨"a", 1, 1, 0, "u", "a.jpg"⟩] [] [] "t1").catalog
        (runPipeline (fun _ => true) [⟨"a", 1, 1, 0, "u", "a.jpg"⟩] [] [] "t1").disk
        "t2").counts = ⟨0, 1, 0⟩ := by
  have h := pipeline_second_run_idempotent (fun _ => true)
    [⟨"a", 1, 1, 0, "u", "a.jpg"⟩] [] [] "t1" "t2"
    (by intro p hp hu; simp at hp; subst hp; decide)
    (by intro p hp hu; rfl)
  exact ⟨h.1, h.2.2.1⟩

/-!  ## `ImageDownloader._download_single_image`  (source lines 305-364)

One call makes up to `Config.MAX_RETRIES` iterations of
`session.get`; the outcome of the `attempt`-th GET is given by an oracle.
`ok size` is a 2xx response with a body of `size` bytes; the other
constructors are the exception classes of the four `except` branches
(`otherError` also covers a non-2xx status raised by
`raise_for_status`).  Each except branch logs a warning carrying its
classification and the attempt number (`warns`), and sleeps 2s
(network-class) or 1s (uncategorized) before retrying, but only when
attempts remain.  With `CONVERT_TO_JPG` unset, a 2xx body is written to
the target file and, if under 1024 bytes, the file is removed and the
call returns `False` at once (the size warning logged there carries no
attempt number and is not recorded in `warns`).  With `CONVERT_TO_JPG`
set, the call returns whatever `_download_and_convert_to_jpg` returns
(`convertOk`). -/

inductive HttpOutcome where
  | sslError
  | connectionError
  | timeoutError
  | otherError
  | ok (size : Nat)
deriving DecidableEq

def isHttpFailure : HttpOutcome → Bool
  | .ok _ => false
  | _ => true

/-- The classification named in the warning of each `except` branch. -/
def warnLabel : HttpOutcome → String
  | .sslError => "SSL错误"
  | .connectionError => "连接错误"
  | .timeoutError => "超时"
  | _ => "下载图片失败"

/-- Seconds slept before the next attempt: 2 for the three network-class
branches, 1 for the uncategorized branch. -/
def retryDelay : HttpOutcome → Nat
  | .sslError => 2
  | .connectionError => 2
  | .timeoutError => 2
  | _ => 1

structure FetchResult where
  success : Bool
  attempts : Nat
  warns : List (String × Nat)
  sleeps : List Nat
  fileOnDisk : Bool
deriving DecidableEq

/-- The `for attempt in range(Config.MAX_RETRIES)` loop; `fuel` is the
number of loop iterations left (`MAX_RETRIES - attempt`). -/
def download_single_image_loop (oracle : Nat → HttpOutcome)
    (convertToJpg convertOk : Bool) : Nat → Nat → FetchResult
  | 0, _ => { success := false, attempts := 0, warns := [], sleeps := [],
              fileOnDisk := false }
  | fuel + 1, attempt =>
    match oracle attempt with
    | .ok size =>
      if convertToJpg then
        { success := convertOk, attempts := 1, warns := [], sleeps := [],
          fileOnDisk := convertOk }
      else if size < 1024 then
        { success := false, attempts := 1, warns := [], sleeps := [],
          fileOnDisk := false }
      else
        { success := true, attempts := 1, warns := [], sleeps := [],
          fileOnDisk := true }
    | o =>
      if attempt < MAX_RETRIES - 1 then
        let rest := download_single_image_loop oracle convertToJpg convertOk fuel (attempt + 1)
        { success := rest.success, attempts := rest.attempts + 1,
          warns := (warnLabel o, attempt + 1) :: rest.warns,
          sleeps := retryDelay o :: rest.sleeps, fileOnDisk := rest.fileOnDisk }
      else
        { success := false, attempts := 1,
          warns := [(warnLabel o, attempt + 1)], sleeps := [],
          fileOnDisk := false }

/-- `ImageDownloader._download_single_image(url, file_path)`. -/
def download_single_image (oracle : Nat → HttpOutcome)
    (convertToJpg convertOk : Bool) : FetchResult :=
  download_single_image_loop oracle convertToJpg convertOk MAX_RETRIES 0

lemma loop_attempts_le (oracle : Nat → HttpOutcome) (convertToJpg convertOk : Bool)
    (fuel attempt : Nat) :
    (download_single_image_loop oracle convertToJpg convertOk fuel attempt).attempts ≤ fuel := by
  induction fuel generalizing attempt with
  | zero => exact Nat.le_refl 0
  | succ n ih =>
    unfold download_single_image_loop
    split
    · split_ifs <;> exact Nat.succ_le_succ (Nat.zero_le n)
    · split_ifs with hlt
      · have H := ih (attempt + 1)
        show (download_single_image_loop oracle convertToJpg convertOk n (attempt + 1)).attempts + 1 ≤ n + 1
        omega
      · exact Nat.succ_le_succ (Nat.zero_le n)

/-- C6 (confirmed part): at most `MAX_RETRIES` GET attempts are made; when
every attempt fails with a classified error, each failure logs a warning
naming its classification and attempt number, a fixed delay (2s for the
network-class branches, 1s for the uncategorized branch) is slept between
attempts, and after the budget is exhausted the call returns failure. -/
theorem fetch_retry_policy (oracle : Nat → HttpOutcome) (convertToJpg convertOk : Bool) :
    (download_single_image oracle convertToJpg convertOk).attempts ≤ MAX_RETRIES ∧
    ((∀ i, i < MAX_RETRIES → isHttpFailure (oracle i) = true) →
      download_single_image oracle convertToJpg convertOk =
        { success := false, attempts := 3,
          warns := [(warnLabel (oracle 0), 1), (warnLabel (oracle 1), 2),
            (warnLabel (oracle 2), 3)],
          sleeps := [retryDelay (oracle 0), retryDelay (oracle 1)],
          fileOnDisk := false }) := by
  constructor
  · exact loop_attempts_le oracle convertToJpg convertOk MAX_RETRIES 0
  · intro hf
    have h0 := hf 0 (by decide)
    have h1 := hf 1 (by decide)
    have h2 := hf 2 (by decide)
    cases o0 : oracle 0 <;> cases o1 : oracle 1 <;> cases o2 : oracle 2 <;>
      simp_all [download_single_image, download_single_image_loop, MAX_RETRIES,
        isHttpFailure, warnLabel, retryDelay]

/-- Witness for `fetch_retry_policy`: three timeouts exhaust the budget. -/
theorem fetch_retry_policy_witness :
    (download_single_image (fun _ => HttpOutcome.timeoutError) true true).attempts ≤
      MAX_RETRIES ∧
    download_single_image (fun _ => HttpOutcome.timeoutError) true true =
      { success := false, attempts := 3,
        warns := [("超时", 1), ("超时", 2), ("超时", 3)], sleeps := [2, 2],
        fileOnDisk := false } := by
  have h := fetch_retry_policy (fun _ => HttpOutcome.timeoutError) true true
  exact ⟨h.1, h.2 (fun i _ => rfl)⟩

/-- C5 (counterexample): with normalization disabled and every response a
2xx body of 10 bytes (< 1 KB), the call makes exactly one GET — the
small-body failure returns `False` immediately instead of consuming a
retry and making the remaining attempts. -/
theorem small_body_counterexample :
    (download_single_image (fun _ => HttpOutcome.ok 10) false true).attempts = 1 ∧
    (download_single_image (fun _ => HttpOutcome.ok 10) false true).success = false ∧
    (download_single_image (fun _ => HttpOutcome.ok 10) false true).fileOnDisk = false ∧
    (download_single_image (fun _ => HttpOutcome.ok 10) false true).attempts ≠
      MAX_RETRIES := by
  decide

/-- C5 (amended): when normalization is disabled, a 2xx attempt whose body
is under 1 KB is treated as failed — the partially written file is deleted
and the call returns failure immediately, after exactly the attempts made
so far; no further attempt of the budget is made. -/
theorem small_body_fails_immediately (oracle : Nat → HttpOutcome) (convertOk : Bool)
    (i s : Nat) (hi : i < MAX_RETRIES)
    (hbefore : ∀ j, j < i → isHttpFailure (oracle j) = true)
    (hok : oracle i = HttpOutcome.ok s) (hs : s < 1024) :
    (download_single_image oracle false convertOk).success = false ∧
    (download_single_image oracle false convertOk).attempts = i + 1 ∧
    (download_single_image oracle false convertOk).fileOnDisk = false := by
  have hi3 : i < 3 := hi
  interval_cases i
  · simp [download_single_image, download_single_image_loop, hok, hs, MAX_RETRIES]
  · have h0 := hbefore 0 (by decide)
    cases o0 : oracle 0 <;>
      simp_all [download_single_image, download_single_image_loop, MAX_RETRIES,
        isHttpFailure, hok, hs]
  · have h0 := hbefore 0 (by decide)
    have h1 := hbefore 1 (by decide)
    cases o0 : oracle 0 <;> cases o1 : oracle 1 <;>
      simp_all [download_single_image, download_single_image_loop, MAX_RETRIES,
        isHttpFailure, hok, hs]

/-- Witness for `small_body_fails_immediately`: one connection error, then
a 700-byte body, with normalization disabled. -/
theorem small_body_fails_immediately_witness :
    (download_single_image
      (fun j => if j = 0 then HttpOutcome.connectionError else HttpOutcome.ok 700)
      false true).success = false ∧
    (download_single_image
      (fun j => if j = 0 then HttpOutcome.connectionError else HttpOutcome.ok 700)
      false true).attempts = 2 ∧
    (download_single_image
      (fun j => if j = 0 then HttpOutcome.connectionError else HttpOutcome.ok 700)
      false true).fileOnDisk = false := by
  exact small_body_fails_immediately
    (fun j => if j = 0 then HttpOutcome.connectionError else HttpOutcome.ok 700)
    true 1 700 (by decide) (fun j hj => by interval_cases j; rfl) rfl (by decide)

/-!  ## `ImageDownloader._download_and_convert_to_jpg`  (source lines 366-413)

The image directory is a flat map filename ↦ bytes, modelled as an
association list (newest entry first).  `convert` abstracts the PIL
decode → flatten-transparency → JPEG-encode step (`none` = decode or
encode raised); `fallbackWriteOk` is whether the fallback raw write
itself succeeds. -/

def fsWrite (fs : List (String × List Nat)) (p : String) (d : List Nat) :
    List (String × List Nat) :=
  (p, d) :: fs.filter fun e => decide (e.1 ≠ p)

def fsRemove (fs : List (String × List Nat)) (p : String) : List (String × List Nat) :=
  fs.filter fun e => decide (e.1 ≠ p)

def fsGet (fs : List (String × List Nat)) (p : String) : Option (List Nat) :=
  (fs.find? fun e => decide (e.1 = p)).map fun e => e.2

/-- `_download_and_convert_to_jpg(image_data, file_path)`: write the raw
bytes to `file_path + '.temp'`; decode and re-encode them, saving the
JPEG directly to `file_path` and removing the temp file; on conversion
failure write the raw bytes verbatim to `file_path`; the `finally` block
removes the temp file on every exit path. -/
def download_and_convert_to_jpg (convert : List Nat → Option (List Nat))
    (fallbackWriteOk : Bool) (image_data : List Nat) (file_path : String)
    (fs : List (String × List Nat)) : Bool × List (String × List Nat) :=
  let temp_path := file_path ++ ".temp"
  let fs1 := fsWrite fs temp_path image_data
  match convert image_data with
  | some jpgBytes =>
    let fs2 := fsWrite fs1 file_path jpgBytes
    let fs3 := fsRemove fs2 temp_path
    (true, fsRemove fs3 temp_path)
  | none =>
    if fallbackWriteOk then
      (true, fsRemove (fsWrite fs1 file_path image_data) temp_path)
    else
      (false, fsRemove fs1 temp_path)

lemma fsGet_fsWrite_self (fs : List (String × List Nat)) (p : String) (d : List Nat) :
    fsGet (fsWrite fs p d) p = some d := by
  unfold fsGet fsWrite
  rw [List.find?_cons_of_pos _ (by simp)]
  rfl

lemma fsGet_fsRemove_ne (fs : List (String × List Nat)) (p q : String) (h : q ≠ p) :
    fsGet (fsRemove fs p) q = fsGet fs q := by
  unfold fsGet fsRemove
  induction fs with
  | nil => rfl
  | cons e fs ih =>
    by_cases he : e.1 = p
    · rw [List.filter_cons_of_neg (by simpa using he)]
      rw [List.find?_cons_of_neg _ (by simp [he]; exact fun hq => h hq.symm)]
      exact ih
    · rw [List.filter_cons_of_pos (by simpa using he)]
      by_cases hq : e.1 = q
      · rw [List.find?_cons_of_pos _ (by simpa using hq),
          List.find?_cons_of_pos _ (by simpa using hq)]
      · rw [List.find?_cons_of_neg _ (by simpa using hq),
          List.find?_cons_of_neg _ (by simpa using hq)]
        exact ih

lemma fsGet_fsWrite_ne (fs : List (String × List Nat)) (p q : String) (d : List Nat)
    (h : q ≠ p) : fsGet (fsWrite fs p d) q = fsGet fs q := by
  unfold fsWrite
  show fsGet ((p, d) :: fsRemove fs p) q = fsGet fs q
  unfold fsGet
  rw [List.find?_cons_of_neg _ (by simp; exact fun hq => absurd hq.symm h)]
  exact fsGet_fsRemove_ne fs p q h

lemma fsGet_fsRemove_self (fs : List (String × List Nat)) (p : String) :
    fsGet (fsRemove fs p) p = none := by
  unfold fsGet fsRemove
  rw [List.find?_eq_none.mpr]
  · rfl
  · intro e he
    have := List.of_mem_filter he
    simpa using this

lemma ne_append_temp (p : String) : p ≠ p ++ ".temp" := by
  intro h
  have hlen := congrArg String.length h
  rw [String.length_append] at hlen
  have h5 : (".temp" : String).length = 5 := rfl
  omega

/-- C7 (counterexample): on a decode failure the fallback writes the raw
fetched bytes verbatim to the final path and reports success, so raw bytes
are left on disk after the run — refuting "raw fetched bytes are never
left on disk"; the normalized write is also a direct save, not a
temp-file-and-rename. -/
theorem raw_bytes_left_on_disk_counterexample :
    (download_and_convert_to_jpg (fun _ => none) true [1, 2, 3] "a.jpg" []).1 = true ∧
    fsGet (download_and_convert_to_jpg (fun _ => none) true [1, 2, 3] "a.jpg" []).2
      "a.jpg" = some [1, 2, 3] := by
  constructor
  · rfl
  · show fsGet (fsRemove (fsWrite (fsWrite [] ("a.jpg" ++ ".temp") [1, 2, 3])
      "a.jpg" [1, 2, 3]) ("a.jpg" ++ ".temp")) "a.jpg" = some [1, 2, 3]
    rw [fsGet_fsRemove_ne _ _ _ (ne_append_temp "a.jpg"), fsGet_fsWrite_self]

/-- C7 (amended): the temporary file `file_path + '.temp'` holding the raw
bytes is removed on every exit path of the convert-and-write operation,
including decode/encode failure; but the normalized JPEG is saved directly
to the final path (no rename), and on conversion failure the raw bytes are
written verbatim to the final path (success) or, if even that write fails,
the operation fails leaving the final path untouched. -/
theorem convert_exit_paths (convert : List Nat → Option (List Nat))
    (fallbackWriteOk : Bool) (image_data : List Nat) (file_path : String)
    (fs : List (String × List Nat)) :
    fsGet (download_and_convert_to_jpg convert fallbackWriteOk image_data file_path fs).2
      (file_path ++ ".temp") = none ∧
    (∀ jpgBytes, convert image_data = some jpgBytes →
      (download_and_convert_to_jpg convert fallbackWriteOk image_data file_path fs).1 =
        true ∧
      fsGet (download_and_convert_to_jpg convert fallbackWriteOk image_data file_path
        fs).2 file_path = some jpgBytes) ∧
    (convert image_data = none → fallbackWriteOk = true →
      (download_and_convert_to_jpg convert fallbackWriteOk image_data file_path fs).1 =
        true ∧
      fsGet (download_and_convert_to_jpg convert fallbackWriteOk image_data file_path
        fs).2 file_path = some image_data) ∧
    (convert image_data = none → fallbackWriteOk = false →
      (download_and_convert_to_jpg convert fallbackWriteOk image_data file_path fs).1 =
        false ∧
      fsGet (download_and_convert_to_jpg convert fallbackWriteOk image_data file_path
        fs).2 file_path = fsGet fs file_path) := by
  unfold download_and_convert_to_jpg
  cases hconv : convert image_data with
  | some jpgBytes =>
    refine ⟨fsGet_fsRemove_self _ _, ?_, ?_, ?_⟩
    · intro j hj
      cases hj
      refine ⟨rfl, ?_⟩
      rw [fsGet_fsRemove_ne _ _ _ (ne_append_temp file_path),
        fsGet_fsRemove_ne _ _ _ (ne_append_temp file_path), fsGet_fsWrite_self]
    · intro hnone
      cases hnone
    · intro hnone
      cases hnone
  | none =>
    cases fallbackWriteOk with
    | true =>
      refine ⟨?_, ?_, ?_, ?_⟩
      · show fsGet (fsRemove _ (file_path ++ ".temp")) (file_path ++ ".temp") = none
        exact fsGet_fsRemove_self _ _
      · intro j hj
        cases hj
      · intro _ _
        refine ⟨rfl, ?_⟩
        show fsGet (fsRemove (fsWrite _ file_path image_data) (file_path ++ ".temp"))
          file_path = some image_data
        rw [fsGet_fsRemove_ne _ _ _ (ne_append_temp file_path), fsGet_fsWrite_self]
      · intro _ hfalse
        cases hfalse
    | false =>
      refine ⟨?_, ?_, ?_, ?_⟩
      · show fsGet (fsRemove _ (file_path ++ ".temp")) (file_path ++ ".temp") = none
        exact fsGet_fsRemove_self _ _
      · intro j hj
        cases hj
      · intro _ htrue
        cases htrue
      · intro _ _
        refine ⟨rfl, ?_⟩
        show fsGet (fsRemove (fsWrite fs (file_path ++ ".temp") image_data)
          (file_path ++ ".temp")) file_path = fsGet fs file_path
        rw [fsGet_fsRemove_ne _ _ _ (ne_append_temp file_path),
          fsGet_fsWrite_ne _ _ _ _ (ne_append_temp file_path)]

/-- Witness for `convert_exit_paths` at a concrete failing conversion. -/
theorem convert_exit_paths_witness :
    fsGet (download_and_convert_to_jpg (fun _ => none) true [9] "b.jpg" []).2
      ("b.jpg" ++ ".temp") = none ∧
    fsGet (download_and_convert_to_jpg (fun _ => none) true [9] "b.jpg" []).2
      "b.jpg" = some [9] := by
  have h := convert_exit_paths (fun _ => none) true [9] "b.jpg" []
  exact ⟨h.1, (h.2.2.1 rfl rfl).2⟩

/-!  ## `DataExtractor.parse_json_file` (source lines 67-82) and
`MalatangProcessor.process_file` (source lines 448-469) -/

/-- The outcome of opening the input file and running `json.load` on it. -/
inductive ParseOutcome (Feed : Type) where
  | success (data : Feed)
  | jsonDecodeError
  | fileNotFound
  | otherReadError

/-- `DataExtractor.parse_json_file`: the decoded structure, or `None` on
`json.JSONDecodeError`, `FileNotFoundError` or any other exception. -/
def parse_json_file {Feed : Type} : ParseOutcome Feed → Option Feed
  | .success d => some d
  | .jsonDecodeError => none
  | .fileNotFound => none
  | .otherReadError => none

/-- `MalatangProcessor.process_file`: parse the feed, bail out when
`not data` or when no products were extracted, otherwise save to Excel
and then download images.  `truthy` is Python truthiness of the decoded
feed, `extract` is `DataExtractor.extract_products`; catalog contents and
image-directory file set are threaded explicitly.  The final component
records whether the persist/download stages ran. -/
def process_file {Feed : Type} (outcome : ParseOutcome Feed) (truthy : Feed → Bool)
    (extract : Feed → List Product) (singleOk : String → Bool)
    (catalog : List Row) (disk : List String) (current_time : String) :
    List Row × List String × Bool :=
  match parse_json_file outcome with
  | none => (catalog, disk, false)
  | some d =>
    if truthy d = false then (catalog, disk, false)
    else
      let products := extract d
      if products.isEmpty then (catalog, disk, false)
      else
        let catalog2 := save_products_to_excel catalog products current_time
        let r := download_images singleOk products disk
        (catalog2, r.2, true)

/-- C8: when parsing fails (malformed JSON, missing file, or any other
read error), no feed structure is returned and the run aborts with the
catalog contents and the image directory untouched. -/
theorem parse_failure_aborts {Feed : Type} (outcome : ParseOutcome Feed)
    (truthy : Feed → Bool) (extract : Feed → List Product) (singleOk : String → Bool)
    (catalog : List Row) (disk : List String) (current_time : String)
    (hfail : ∀ d, outcome ≠ ParseOutcome.success d) :
    parse_json_file outcome = none ∧
    process_file outcome truthy extract singleOk catalog disk current_time =
      (catalog, disk, false) := by
  have hp : parse_json_file outcome = none := by
    cases outcome with
    | success d => exact absurd rfl (hfail d)
    | jsonDecodeError => rfl
    | fileNotFound => rfl
    | otherReadError => rfl
  refine ⟨hp, ?_⟩
  unfold process_file
  rw [hp]

/-- Witness for `parse_failure_aborts`: malformed JSON against a nonempty
catalog and image directory. -/
theorem parse_failure_aborts_witness :
    parse_json_file (ParseOutcome.jsonDecodeError : ParseOutcome Unit) = none ∧
    process_file (ParseOutcome.jsonDecodeError : ParseOutcome Unit) (fun _ => true)
      (fun _ => [⟨"a", 1, 1, 0, "u", "a.jpg"⟩]) (fun _ => true)
      [productToRow ⟨"b", 2, 2, 0, "", ""⟩ "t0"] ["a.jpg"] "t1" =
      ([productToRow ⟨"b", 2, 2, 0, "", ""⟩ "t0"], ["a.jpg"], false) :=
  parse_failure_aborts (ParseOutcome.jsonDecodeError : ParseOutcome Unit)
    (fun _ => true) (fun _ => [⟨"a", 1, 1, 0, "u", "a.jpg"⟩]) (fun _ => true)
    [productToRow ⟨"b", 2, 2, 0, "", ""⟩ "t0"] ["a.jpg"] "t1"
    (fun d h => by cases h)

/-!  ## `FileMonitorHandler.on_modified`  (source lines 416-436)

Handler state is `self.last_modified` (initialized to 0); event times are
`time.time()` values in seconds, modelled as rationals.  Python's
`str.endswith` is embedded on the character lists (`String.endsWith`
itself is not kernel-reducible). -/

/-- Python `s.endswith(suffix)`. -/
def pyEndsWith (s suffix : String) : Bool := suffix.data.isSuffixOf s.data

/-- `FileMonitorHandler.on_modified`: ignore directory events and paths not
ending in `Config.INPUT_FILE`; discard the event when less than 2 seconds
have passed since the last accepted one; otherwise record the time and run
reprocessing.  Returns the new `last_modified` and whether reprocessing
was triggered. -/
def on_modified (last_modified : ℚ) (is_directory : Bool) (src_path : String)
    (now : ℚ) : ℚ × Bool :=
  if is_directory then (last_modified, false)
  else if pyEndsWith src_path INPUT_FILE then
    if now - last_modified < 2 then (last_modified, false)
    else (now, true)
  else (last_modified, false)

/-- A sequence of modification events on the watched file path, given by
their timestamps, folded through the handler state; returns the final
state and the per-event "reprocessing triggered" decisions. -/
def runMonitor (last_modified : ℚ) : List ℚ → ℚ × List Bool
  | [] => (last_modified, [])
  | t :: ts =>
    let r := on_modified last_modified false INPUT_FILE t
    let rest := runMonitor r.1 ts
    (rest.1, r.2 :: rest.2)

set_option maxRecDepth 4096 in
lemma pyEndsWith_input_self : pyEndsWith INPUT_FILE INPUT_FILE = true := by decide

/-- C9 (counterexample): with accepted notifications at t=2 and t=4 and a
discarded one at t=3, the notifications at t=3 and t=4 arrive 1 second
apart (< 2), yet the one at t=4 is NOT discarded — the debounce compares
against the last ACCEPTED notification, not the previous notification. -/
theorem debounce_pairwise_counterexample :
    (runMonitor 0 [2, 3, 4]).2 = [true, false, true] ∧ (4 : ℚ) - 3 < 2 := by
  constructor
  · norm_num [runMonitor, on_modified, pyEndsWith_input_self]
  · norm_num

/-- C9 (amended): a notification for the watched path arriving less than
2 seconds after the last ACCEPTED one is discarded; one arriving 2 or more
seconds after the last accepted one is accepted and triggers reprocessing;
hence an isolated pair of notifications under 2 seconds apart (the first
accepted) yields exactly one reprocessing call. -/
theorem debounce_amended :
    (∀ st t : ℚ, t - st < 2 → on_modified st false INPUT_FILE t = (st, false)) ∧
    (∀ st t : ℚ, 2 ≤ t - st → on_modified st false INPUT_FILE t = (t, true)) ∧
    (∀ t1 t2 : ℚ, 2 ≤ t1 → t2 - t1 < 2 →
      (runMonitor 0 [t1, t2]).2 = [true, false]) := by
  refine ⟨?_, ?_, ?_⟩
  · intro st t h
    unfold on_modified
    rw [if_neg (by simp), if_pos (by rw [pyEndsWith_input_self]), if_pos h]
  · intro st t h
    unfold on_modified
    rw [if_neg (by simp), if_pos (by rw [pyEndsWith_input_self]),
      if_neg (by linarith)]
  · intro t1 t2 h1 h2
    show ((runMonitor (on_modified 0 false INPUT_FILE t1).1 [t2]).1,
      (on_modified 0 false INPUT_FILE t1).2 ::
        (runMonitor (on_modified 0 false INPUT_FILE t1).1 [t2]).2).2 = [true, false]
    have e1 : on_modified 0 false INPUT_FILE t1 = (t1, true) := by
      unfold on_modified
      rw [if_neg (by simp), if_pos (by rw [pyEndsWith_input_self]),
        if_neg (by linarith)]
    rw [e1]
    show (_, true :: (runMonitor t1 [t2]).2).2 = [true, false]
    have e2 : on_modified t1 false INPUT_FILE t2 = (t1, false) := by
      unfold on_modified
      rw [if_neg (by simp), if_pos (by rw [pyEndsWith_input_self]), if_pos h2]
    show (_, true :: ((runMonitor (on_modified t1 false INPUT_FILE t2).1 []).1,
      (on_modified t1 false INPUT_FILE t2).2 ::
        (runMonitor (on_modified t1 false INPUT_FILE t2).1 []).2).2).2 = [true, false]
    rw [e2]
    rfl

/-- Witness for `debounce_amended` at concrete times. -/
theorem debounce_amended_witness :
    on_modified 0 false INPUT_FILE 1 = (0, false) ∧
    on_modified 0 false INPUT_FILE 5 = (5, true) ∧
    (runMonitor 0 [2, 3]).2 = [true, false] := by
  have h := debounce_amended
  exact ⟨h.1 0 1 (by norm_num), h.2.1 0 5 (by norm_num),
    h.2.2 2 3 (by norm_num) (by norm_num)⟩
